import Mathlib

/-!
Verification of the video-processing pipeline of `src/main/services/video-processor.ts`.

The repository ships two variants of the `VideoProcessor` class in that file
(separated by a document marker).  Where the two variants agree we embed the
logic once; where they differ the Lean definitions carry a `V1` / `V2` suffix
for the first and second variant respectively.

Modelling conventions:
* JavaScript `Map` objects (insertion-ordered, unique keys) are embedded as
  association lists `List (String × α)`; `Set` as `List String`.
* Filesystem state is embedded explicitly: a product directory is a name plus
  a list of file basenames; the watched root is a list of directories.
* Durations (JS numbers) are embedded as rationals `ℚ`; `Math.abs` is the
  if-based `ratAbs` below.
* The external ffmpeg/ffprobe calls are embedded as outcome parameters
  (`EncodeOutcome`, `MergeOutcome`): the code under verification is the
  TypeScript control flow around them, not the transcoder itself.
* `crypto.createHash('md5')`, used by variant 1 on the file-event hot path,
  is embedded as a full executable MD5 over the file's content bytes.
-/

/-! ### Generic helpers: JS `Map`/`Set` operations on association lists -/

/-- JS `Map.prototype.set`: update the value at an existing key in place
(keeping its position) or append a fresh entry at the end. -/
def alistSet {α : Type} (k : String) (v : α) : List (String × α) → List (String × α)
  | [] => [(k, v)]
  | (k', v') :: rest => if k' = k then (k, v) :: rest else (k', v') :: alistSet k v rest

/-- JS `Map.prototype.delete`: remove the entry with the given key.  JS map
keys are unique, so removing every matching entry is faithful. -/
def alistDelete {α : Type} (k : String) (l : List (String × α)) : List (String × α) :=
  l.filter (fun p => p.1 ≠ k)

/-- JS `Map.prototype.has`. -/
def alistHas {α : Type} (k : String) (l : List (String × α)) : Bool :=
  l.any (fun p => p.1 = k)

/-- JS `Set.prototype.add` (no-op when the element is present, else append). -/
def setAdd (k : String) (s : List String) : List String :=
  if k ∈ s then s else s ++ [k]

/-- JS `Set.prototype.delete`. -/
def setDelete (k : String) (s : List String) : List String :=
  s.filter (fun x => x ≠ k)

/-- JS `Set.prototype.has`. -/
def setHas (k : String) (s : List String) : Bool :=
  s.any (fun x => x = k)

/-! ### Queue data model

`QueueItem` is the entry type of `processingQueue` (both variants store the
same fields; variant 1 calls the identity key `hash`, variant 2 calls it
`key`).  `ProcState` bundles the three mutable collections of the class:
`processingQueue`, `currentlyProcessing` and `recentlyProcessed`. -/

structure QueueItem where
  hash : String
  eventType : String
  addedTime : Nat
  processing : Bool
  retryCount : Nat
deriving DecidableEq, Repr

structure ProcState where
  processingQueue : List (String × QueueItem)
  currentlyProcessing : List String
  recentlyProcessed : List (String × Nat)
deriving DecidableEq, Repr

/-- Method `isFileBeingProcessed` (identical in both variants): a key is
"being processed" when it is in the in-flight set or the recently-processed
map. -/
def isFileBeingProcessed (st : ProcState) (fileKey : String) : Bool :=
  setHas fileKey st.currentlyProcessing || alistHas fileKey st.recentlyProcessed

/-- Method `addToProcessingQueue` (identical in both variants). -/
def addToProcessingQueue (now : Nat) (st : ProcState) (filePath fileKey eventType : String) :
    ProcState :=
  { st with
    processingQueue :=
      alistSet filePath
        { hash := fileKey, eventType := eventType, addedTime := now
          processing := false, retryCount := 0 }
        st.processingQueue }

/-- Method `processQueuedVideo` (identical control flow in both variants).
`outcome = true` means `processVideo` resolved, `false` that it threw.

Success path: mark the item processing, add its key to the in-flight set,
delete the queue entry and record the key in `recentlyProcessed` with the
current timestamp.  Note that the success path does NOT remove the key from
`currentlyProcessing` — only the failure path does; this is exactly what the
source does and is what claim C4 is about.

Failure path: bump the retry count, clear the processing flag, remove the key
from the in-flight set; drop the entry once the retry count reaches 3. -/
def processQueuedVideo (now : Nat) (outcome : Bool) (st : ProcState)
    (filePath : String) (queueItem : QueueItem) : ProcState :=
  let item1 := { queueItem with processing := true }
  let st1 : ProcState :=
    { st with
      processingQueue := alistSet filePath item1 st.processingQueue
      currentlyProcessing := setAdd queueItem.hash st.currentlyProcessing }
  if outcome then
    { st1 with
      processingQueue := alistDelete filePath st1.processingQueue
      recentlyProcessed := alistSet queueItem.hash now st1.recentlyProcessed }
  else
    let item2 := { item1 with retryCount := queueItem.retryCount + 1, processing := false }
    let st2 : ProcState :=
      { st1 with
        currentlyProcessing := setDelete queueItem.hash st1.currentlyProcessing
        processingQueue := alistSet filePath item2 st1.processingQueue }
    if 3 ≤ item2.retryCount then
      { st2 with processingQueue := alistDelete filePath st2.processingQueue }
    else
      st2

/-- One tick of the interval installed by `startQueueProcessing`: when the
queue is non-empty, look at its first entry and, unless it is already marked
`processing`, run `processQueuedVideo` on it.  The returned Bool records
whether a processing attempt was made this tick. -/
def queueTick (now : Nat) (outcome : Bool) (st : ProcState) : ProcState × Bool :=
  match st.processingQueue with
  | [] => (st, false)
  | (filePath, queueItem) :: _ =>
    if queueItem.processing then (st, false)
    else (processQueuedVideo now outcome st filePath queueItem, true)

/-- Iterated drain loop against a transcoder whose outcome is always
`outcome`; returns the final state and the number of processing attempts. -/
def drainLoop (now : Nat) (outcome : Bool) : Nat → ProcState → ProcState × Nat
  | 0, st => (st, 0)
  | n + 1, st =>
    let (st1, attempted) := queueTick now outcome st
    let (st2, count) := drainLoop now outcome n st1
    (st2, (if attempted then 1 else 0) + count)

/-! ### Identity keys and deletion handling

`FileModel` is a snapshot of one physical file: its path, the `fs.statSync`
metadata the code reads (`size`, `mtimeMs`), and its content bytes.  A
`statSync` call on a path whose file is gone throws; the `stat?` parameters
below are `none` in that case. -/

structure FileModel where
  path : String
  size : Nat
  mtime : Nat
  content : List Nat
deriving DecidableEq, Repr

/-- Variant 1 method `getFileKey` (lines 730-737): `path:size:mtimeMs` when
`statSync` succeeds, falling back to the bare path when it throws. -/
def getFileKeyV1 (stat? : Option (Nat × Nat)) (filePath : String) : String :=
  match stat? with
  | some (size, mtime) => filePath ++ ":" ++ toString size ++ ":" ++ toString mtime
  | none => filePath

/-- Variant 2 option `fileKeyMethod`: `'path'` (the default) or
`'path-size-mtime'`. -/
inductive FileKeyMethod
  | path
  | pathSizeMtime
deriving DecidableEq, Repr

/-- Variant 2 method `getFileKey` (lines 972-991): the bare path in `'path'`
mode; `path:size:mtimeMs` in `'path-size-mtime'` mode, falling back to the
bare path when `statSync` throws. -/
def getFileKeyV2 (method : FileKeyMethod) (stat? : Option (Nat × Nat)) (filePath : String) :
    String :=
  match method with
  | .path => filePath
  | .pathSizeMtime =>
    match stat? with
    | some (size, mtime) => filePath ++ ":" ++ toString size ++ ":" ++ toString mtime
    | none => filePath

/-- Variant 1 method `handleFileDelete` (lines 239-245): compute
`getFileKey(filePath)`, delete that key from `currentlyProcessing`, and delete
the path-keyed queue entry.  It does not touch `recentlyProcessed`. -/
def handleFileDeleteV1 (stat? : Option (Nat × Nat)) (filePath : String) (st : ProcState) :
    ProcState :=
  let fileHash := getFileKeyV1 stat? filePath
  { st with
    currentlyProcessing := setDelete fileHash st.currentlyProcessing
    processingQueue := alistDelete filePath st.processingQueue }

/-- Variant 2 method `handleFileDelete` (lines 1143-1168): compute
`getFileKey(filePath)`, delete that key from both `currentlyProcessing` and
`recentlyProcessed`, and delete the path-keyed queue entry. -/
def handleFileDeleteV2 (method : FileKeyMethod) (stat? : Option (Nat × Nat))
    (filePath : String) (st : ProcState) : ProcState :=
  let fileKey := getFileKeyV2 method stat? filePath
  { st with
    currentlyProcessing := setDelete fileKey st.currentlyProcessing
    recentlyProcessed := alistDelete fileKey st.recentlyProcessed
    processingQueue := alistDelete filePath st.processingQueue }

/-! ### MD5 (the `crypto.createHash('md5')` dependency of variant 1)

Variant 1's `getFileHash` streams the whole file content through an MD5
digest and returns the hex string.  The digest itself is the standard MD5
algorithm (RFC 1321), embedded here executably over byte lists. -/

/-- Truncate to an unsigned 32-bit value. -/
def u32 (x : Nat) : Nat := x % 4294967296

/-- Rotate a 32-bit value left by `n` bits. -/
def rotl32 (x n : Nat) : Nat :=
  u32 (x <<< n) ||| (x >>> (32 - n))

/-- MD5 per-round sine-derived constants. -/
def md5K : List Nat :=
  [0xd76aa478, 0xe8c7b756, 0x242070db, 0xc1bdceee,
   0xf57c0faf, 0x4787c62a, 0xa8304613, 0xfd469501,
   0x698098d8, 0x8b44f7af, 0xffff5bb1, 0x895cd7be,
   0x6b901122, 0xfd987193, 0xa679438e, 0x49b40821,
   0xf61e2562, 0xc040b340, 0x265e5a51, 0xe9b6c7aa,
   0xd62f105d, 0x02441453, 0xd8a1e681, 0xe7d3fbc8,
   0x21e1cde6, 0xc33707d6, 0xf4d50d87, 0x455a14ed,
   0xa9e3e905, 0xfcefa3f8, 0x676f02d9, 0x8d2a4c8a,
   0xfffa3942, 0x8771f681, 0x6d9d6122, 0xfde5380c,
   0xa4beea44, 0x4bdecfa9, 0xf6bb4b60, 0xbebfbc70,
   0x289b7ec6, 0xeaa127fa, 0xd4ef3085, 0x04881d05,
   0xd9d4d039, 0xe6db99e5, 0x1fa27cf8, 0xc4ac5665,
   0xf4292244, 0x432aff97, 0xab9423a7, 0xfc93a039,
   0x655b59c3, 0x8f0ccc92, 0xffeff47d, 0x85845dd1,
   0x6fa87e4f, 0xfe2ce6e0, 0xa3014314, 0x4e0811a1,
   0xf7537e82, 0xbd3af235, 0x2ad7d2bb, 0xeb86d391]

/-- MD5 per-round left-rotation amounts. -/
def md5S : List Nat :=
  [7, 12, 17, 22, 7, 12, 17, 22, 7, 12, 17, 22, 7, 12, 17, 22,
   5, 9, 14, 20, 5, 9, 14, 20, 5, 9, 14, 20, 5, 9, 14, 20,
   4, 11, 16, 23, 4, 11, 16, 23, 4, 11, 16, 23, 4, 11, 16, 23,
   6, 10, 15, 21, 6, 10, 15, 21, 6, 10, 15, 21, 6, 10, 15, 21]

/-- MD5 round mixing function (F, G, H, I by round quarter). -/
def md5F (i b c d : Nat) : Nat :=
  if i < 16 then (b &&& c) ||| ((b ^^^ 4294967295) &&& d)
  else if i < 32 then (d &&& b) ||| ((d ^^^ 4294967295) &&& c)
  else if i < 48 then b ^^^ c ^^^ d
  else c ^^^ (b ||| (d ^^^ 4294967295))

/-- MD5 message-word index schedule. -/
def md5G (i : Nat) : Nat :=
  if i < 16 then i
  else if i < 32 then (5 * i + 1) % 16
  else if i < 48 then (3 * i + 5) % 16
  else (7 * i) % 16

/-- Decode a byte list into little-endian 32-bit words. -/
def leWords : List Nat → List Nat
  | b0 :: b1 :: b2 :: b3 :: rest =>
    (b0 + 256 * b1 + 65536 * b2 + 16777216 * b3) :: leWords rest
  | _ => []

/-- One MD5 round applied to the state quadruple. -/
def md5Round (m : List Nat) (st : Nat × Nat × Nat × Nat) (i : Nat) : Nat × Nat × Nat × Nat :=
  let a := st.1
  let b := st.2.1
  let c := st.2.2.1
  let d := st.2.2.2
  let f := u32 (md5F i b c d + a + md5K.getD i 0 + m.getD (md5G i) 0)
  (d, u32 (b + rotl32 f (md5S.getD i 0)), b, c)

/-- Process one 64-byte block. -/
def md5Block (st : Nat × Nat × Nat × Nat) (block : List Nat) : Nat × Nat × Nat × Nat :=
  let m := leWords block
  let r := (List.range 64).foldl (md5Round m) st
  (u32 (st.1 + r.1), u32 (st.2.1 + r.2.1), u32 (st.2.2.1 + r.2.2.1), u32 (st.2.2.2 + r.2.2.2))

/-- Split a byte list into 64-byte chunks (fuel-based structural recursion so
that the kernel can evaluate it; the fuel is an upper bound on the number of
chunks and each step consumes at least one byte). -/
def chunks64Go : Nat → List Nat → List (List Nat)
  | _, [] => []
  | 0, _ => []
  | fuel + 1, b :: rest => ((b :: rest).take 64) :: chunks64Go fuel ((b :: rest).drop 64)

/-- Split a byte list into 64-byte chunks. -/
def chunks64 (l : List Nat) : List (List Nat) :=
  chunks64Go l.length l

/-- MD5 padding: a 1-bit, zeros to 56 mod 64 bytes, then the 64-bit
little-endian bit length. -/
def md5Pad (msg : List Nat) : List Nat :=
  let bitLen := 8 * msg.length
  let zeros := (56 + 64 - (msg.length + 1) % 64) % 64
  msg ++ [128] ++ List.replicate zeros 0 ++
    (List.range 8).map (fun i => bitLen >>> (8 * i) % 256)

/-- Serialize a 32-bit word to little-endian bytes. -/
def leBytes (w : Nat) : List Nat :=
  [w % 256, w >>> 8 % 256, w >>> 16 % 256, w >>> 24 % 256]

/-- The 16 MD5 digest bytes of a byte list. -/
def md5Bytes (msg : List Nat) : List Nat :=
  let init : Nat × Nat × Nat × Nat := (0x67452301, 0xefcdab89, 0x98badcfe, 0x10325476)
  let fin := (chunks64 (md5Pad msg)).foldl md5Block init
  leBytes fin.1 ++ leBytes fin.2.1 ++ leBytes fin.2.2.1 ++ leBytes fin.2.2.2

/-- Lowercase hex digit. -/
def hexDigit (n : Nat) : Char :=
  if n < 10 then Char.ofNat (48 + n) else Char.ofNat (87 + n)

/-- Lowercase hex rendering of a byte list (`Buffer`/digest `'hex'`). -/
def hexString (bytes : List Nat) : String :=
  String.mk (bytes.flatMap (fun b => [hexDigit (b / 16), hexDigit (b % 16)]))

/-- Variant 1 method `getFileHash` (lines 712-727): pipe the file's entire
content through an MD5 digest and return the lowercase hex string.  This is
the identity key variant 1 uses on the file-event hot path. -/
def getFileHash (f : FileModel) : String :=
  hexString (md5Bytes f.content)

/-! ### TranscodeEngine: `processVideo` and its helpers

The external ffmpeg/ffprobe results are collected in `EncodeOutcome`; the
definitions below embed the TypeScript control flow of `processVideo`,
`verifyOutputVideo` and the atempo filter construction of `adjustSpeed`. -/

/-- JS `Math.abs` on the rational embedding of JS numbers. -/
def ratAbs (x : ℚ) : ℚ := if x < 0 then -x else x

/-- Outcome of the external calls made while processing one input file:
whether the encode invocation resolved, whether the output file exists
afterwards, what `ffprobe` measures on the output (`none` = probe error), and
whether the final `fs.unlinkSync(inputPath)` succeeds. -/
structure EncodeOutcome where
  ok : Bool
  outputExists : Bool
  probed : Option ℚ
  unlinkInputOk : Bool

/-- Log severities of the `log` events (`info`, `success`, `warning`,
`error`, `debug`). -/
inductive LogType
  | info
  | success
  | warning
  | error
  | debug
deriving DecidableEq, Repr

/-- Which encode helper `processVideo` invoked. -/
inductive PvAction
  | noAction
  | adjustSpeed
  | trimVideo
deriving DecidableEq, Repr

/-- How `processVideo` finished: resolved without transcoding (`noop` for the
already-20s case, `tooShort` for the under-16s warning case), resolved after
a verified transcode (`done`), or rejected (`error`). -/
inductive PvResult
  | noop
  | tooShort
  | done
  | error
deriving DecidableEq, Repr

/-- Presence of the input file and of the output file after `processVideo`. -/
structure PvState where
  inputExists : Bool
  outputExists : Bool
deriving DecidableEq, Repr

/-- Full observable outcome of one `processVideo` call. -/
structure PvOut where
  fs : PvState
  result : PvResult
  action : PvAction
  logs : List LogType
deriving DecidableEq, Repr

/-- Method `verifyOutputVideo` (variant 1 lines 490-512, variant 2 lines
1459-1468): the output must exist, its duration must be probeable, and the
measured duration must not differ from 20 by more than 1 second. -/
def verifyOutputVideo (o : EncodeOutcome) : Bool :=
  if o.outputExists then
    match o.probed with
    | none => false
    | some duration => if 1 < ratAbs (duration - 20) then false else true
  else false

/-- Encode-branch dispatch of `processVideo`: `adjustSpeed` when
`duration >= 16 && duration <= 24`, `trimVideo` when `duration > 24` (the
remaining case is unreachable there because durations below 16 returned
earlier). -/
def chooseAction (duration : ℚ) : PvAction :=
  if 16 ≤ duration ∧ duration ≤ 24 then .adjustSpeed
  else if 24 < duration then .trimVideo
  else .noAction

/-- Method `processVideo` (variant 1 lines 335-392, variant 2 lines
1261-1318).  `probe?` is the `getVideoDuration(inputPath)` result (`none` =
probe threw).  Control flow, from the source:
* probe failure → rethrown as an error; nothing on disk changes;
* `|duration - 20| < 0.1` → log info, return (no output, input kept);
* `duration < 16` → log warning, return (no output, input kept);
* otherwise encode (`adjustSpeed` for `16 ≤ duration ≤ 24`, `trimVideo` for
  `duration > 24`), then `verifyOutputVideo`, then `fs.unlinkSync(input)`;
  any throw in that `try` deletes the partial output (if present) and
  rethrows, so the error exit always leaves the input in place and no
  output file. -/
def processVideo : Option ℚ → EncodeOutcome → PvOut
  | none, _ => ⟨⟨true, false⟩, .error, .noAction, []⟩
  | some duration, o =>
    if ratAbs (duration - 20) < 1/10 then
      ⟨⟨true, false⟩, .noop, .noAction, [.info, .info]⟩
    else if duration < 16 then
      ⟨⟨true, false⟩, .tooShort, .noAction, [.info, .warning]⟩
    else
      if o.ok = false then
        ⟨⟨true, false⟩, .error, chooseAction duration, [.info, .info]⟩
      else if verifyOutputVideo o = false then
        ⟨⟨true, false⟩, .error, chooseAction duration, [.info, .info]⟩
      else if o.unlinkInputOk then
        ⟨⟨false, true⟩, .done, chooseAction duration, [.info, .info, .success]⟩
      else
        ⟨⟨true, false⟩, .error, chooseAction duration, [.info, .info]⟩

/-- Variant 1 `adjustSpeed` audio filters (lines 397-412): one
`atempo=(speed > 2 ? 2 : speed)` filter, plus — only when `speed > 2` — two
further chained filters `atempo=2, atempo=speed/2`. -/
def adjustSpeedAtempoV1 (duration : ℚ) : List ℚ :=
  let speed := duration / 20
  (if 2 < speed then (2 : ℚ) else speed) ::
    (if 2 < speed then [(2 : ℚ), speed / 2] else [])

/-- Variant 2 `adjustSpeed` audio filter arguments (lines 1323-1350): one
`-af atempo=(speed > 2 ? 2 : speed)` argument, plus — only when `speed > 2`
— a second `-af atempo=speed/2` argument. -/
def adjustSpeedAtempoV2 (duration : ℚ) : List ℚ :=
  let speed := duration / 20
  (if 2 < speed then (2 : ℚ) else speed) ::
    (if 2 < speed then [speed / 2] else [])

/-! ### Merger: directory state, `getProcessedVideos`, `mergeVideos`,
`cleanAndRenameProductDirs`, `checkMergeCondition` -/

/-- Lifecycle tag of a product directory accepting raw material. -/
def s1Tag : String := "S1---"

/-- Lifecycle tag of a consumed product directory. -/
def s2Tag : String := "S2---"

/-- Extension of normalized outputs. -/
def mp4Ext : String := ".mp4"

/-- Ordinal separator of normalized output names. -/
def tripleDash : String := "---"

/-- Decide whether `pat` is a prefix of `l` (on characters). -/
def clPrefix : List Char → List Char → Bool
  | [], _ => true
  | _ :: _, [] => false
  | p :: ps, x :: xs => p == x && clPrefix ps xs

/-- Decide whether `pat` occurs anywhere in `l` (JS `String.includes`). -/
def clContains (pat : List Char) : List Char → Bool
  | [] => clPrefix pat []
  | x :: xs => clPrefix pat (x :: xs) || clContains pat xs

/-- Decide whether a string ends with `pat` (JS `String.endsWith`, and the
`$`-anchored part of the regexes; implemented on characters so that the
kernel can evaluate it). -/
def strEndsWith (s pat : String) : Bool :=
  clPrefix pat.data.reverse s.data.reverse

/-- Decide whether a string starts with `pat` (JS `String.startsWith`). -/
def strStartsWith (s pat : String) : Bool :=
  clPrefix pat.data s.data

/-- Split at the first occurrence of `pat`: `some (before, after)` with the
occurrence removed, or `none` when `pat` does not occur. -/
def clSplitFirst (pat : List Char) : List Char → Option (List Char × List Char)
  | [] => if clPrefix pat [] then some ([], []) else none
  | x :: xs =>
    if clPrefix pat (x :: xs) then some ([], (x :: xs).drop pat.length)
    else
      match clSplitFirst pat xs with
      | none => none
      | some (before, after) => some (x :: before, after)

/-- JS `String.prototype.replace` with a plain-string pattern: replace the
first occurrence only. -/
def replaceFirst (s pat sub : String) : String :=
  match clSplitFirst pat.data s.data with
  | none => s
  | some (before, after) => String.mk (before ++ sub.data ++ after)

/-- Strict lexicographic character-code order on char lists: the order JS
`Array.prototype.sort()`'s default string comparator induces. -/
def clLt : List Char → List Char → Bool
  | [], [] => false
  | [], _ :: _ => true
  | _ :: _, [] => false
  | x :: xs, y :: ys => x < y || (x == y && clLt xs ys)

/-- Digit run to number (the `parseInt(digits, 10)` of the ordinal regex
capture). -/
def digitsToNat (ds : List Char) : Nat :=
  ds.foldl (fun n c => 10 * n + (c.toNat - 48)) 0

/-- Ordinal of a normalized output name: the capture of the anchored regex
`---(\d+)\.mp4$`, or 0 when the regex does not match (both variants default
the ordinal to 0 in their sort comparators). -/
def parseOrdinal (file : String) : Nat :=
  if strEndsWith file mp4Ext then
    let stem := file.data.take (file.data.length - 4)
    let ds := (stem.reverse.takeWhile Char.isDigit).reverse
    if ds.isEmpty then 0
    else if (stem.take (stem.length - ds.length)).reverse.take 3 = tripleDash.data.reverse then
      digitsToNat ds
    else 0
  else 0

/-- Name filter of `getProcessedVideos` and `getOutputFileName`:
`file.endsWith('.mp4') && file.includes('---')`. -/
def isProcessedVideoName (file : String) : Bool :=
  strEndsWith file mp4Ext && clContains tripleDash.data file.data

/-- A product directory: its basename under the watched root and the
basenames of the files it holds. -/
structure PDir where
  name : String
  files : List String
deriving DecidableEq, Repr

/-- The watched root: the directories `fs.readdirSync` lists there, in
listing order. -/
structure MonitorFS where
  dirs : List PDir
deriving DecidableEq, Repr

/-- Descending-ordinal comparison used by the `getProcessedVideos` sort
comparator `numB - numA` (stable JS sort; `List.insertionSort` is stable). -/
def ordinalDesc (a b : String) : Prop := parseOrdinal b ≤ parseOrdinal a

instance : DecidableRel ordinalDesc := fun a b => by
  unfold ordinalDesc; infer_instance

instance : IsTotal String ordinalDesc :=
  ⟨fun a b => Nat.le_total (parseOrdinal b) (parseOrdinal a)⟩

instance : IsTrans String ordinalDesc :=
  ⟨fun _ _ _ hab hbc => le_trans hbc hab⟩

/-- Lexicographic order on directories by name, as JS `Array.sort()`'s
default comparator orders the full paths (all share the root prefix). -/
def dirLe (a b : PDir) : Prop := clLt b.name.data a.name.data = false

instance : DecidableRel dirLe := fun a b => by
  unfold dirLe; infer_instance

/-- Method `getProductDirectories` (both variants): the entries of the
watched root that are directories named with the pending tag. -/
def getProductDirectories (fs : MonitorFS) : List PDir :=
  fs.dirs.filter (fun d => strStartsWith d.name s1Tag)

/-- Step one of `getProcessedVideos`: the directory listing filtered to
processed-video names and sorted by ordinal descending (stable sort, like the
JS comparator sort it embeds). -/
def processedSortedNames (productDir : PDir) : List String :=
  (productDir.files.filter isProcessedVideoName).insertionSort ordinalDesc

/-- Step two of `getProcessedVideos`: `.slice(0, 4)` of the sorted names. -/
def processedTop4 (productDir : PDir) : List String :=
  (processedSortedNames productDir).take 4

/-- Method `getProcessedVideos` (variant 1 lines 796-813, variant 2 lines
1719-1734): filter the directory listing to processed-video names, sort by
ordinal descending (stable), keep the first 4, and map to full paths
(`path.join(productDir, file)`). -/
def getProcessedVideos (productDir : PDir) : List String :=
  (processedTop4 productDir).map (fun file => productDir.name ++ "/" ++ file)

/-- Ready predicate of `checkMergeCondition`: at least 4 processed videos. -/
def readyDir (d : PDir) : Bool :=
  4 ≤ (getProcessedVideos d).length

/-- Per-directory outcome of the `cleanAndRenameProductDirs` loop body:
either every `unlinkSync` and the final `renameSync` succeed, or one of the
filesystem calls throws after `n` files were already unlinked (a throw in
`readdirSync` or the first `unlinkSync` is `failAfter 0`; a throw in
`renameSync` after all files were unlinked is `failAfter` the file count). -/
inductive CleanResult
  | ok
  | failAfter (n : Nat)
deriving DecidableEq, Repr

/-- Outcomes of the external calls a merge makes: whether the ffmpeg concat
resolves, and the per-directory filesystem outcome during cleanup. -/
structure MergeOutcome where
  concatOk : Bool
  cleanResult : String → CleanResult

/-- Effect of the `cleanAndRenameProductDirs` loop body on one directory:
on success all files are removed and the directory is renamed with the tag
flipped; on a mid-loop throw the already-deleted files are gone, the rest
remain, and the directory keeps its name.  Errors are caught per directory
and only logged (variant 1 lines 656-685, variant 2 lines 1609-1637). -/
def cleanDirApply (r : CleanResult) (d : PDir) : PDir :=
  match r with
  | .ok => ⟨replaceFirst d.name s1Tag s2Tag, []⟩
  | .failAfter n => ⟨d.name, d.files.drop n⟩

/-- Method `cleanAndRenameProductDirs`: apply the per-directory cleanup to
every selected directory, leaving all other directories as they are. -/
def cleanAndRenameProductDirs (oc : MergeOutcome) (selected : List PDir) (fs : MonitorFS) :
    MonitorFS :=
  ⟨fs.dirs.map (fun d =>
    if selected.any (fun s => s.name = d.name) then cleanDirApply (oc.cleanResult d.name) d
    else d)⟩

/-- The product directories sorted by the default JS comparator
(`getProductDirectories().sort()`). -/
def sortedProductDirs (fs : MonitorFS) : List PDir :=
  (getProductDirectories fs).insertionSort dirLe

/-- The first five sorted product directories (`.slice(0, 5)`). -/
def selectedDirs (fs : MonitorFS) : List PDir :=
  (sortedProductDirs fs).take 5

/-- The concat input list `videoFiles` of `mergeVideos`: for each selected
directory, `getProcessedVideos(dir).slice(0, 4)`, concatenated in directory
order. -/
def collectFiles (fs : MonitorFS) : List String :=
  (selectedDirs fs).flatMap (fun d => (getProcessedVideos d).take 4)

/-- How a `mergeVideos` call ended: the count guard threw, the concat failed
(both leave every directory untouched), or the concat succeeded and cleanup
ran. -/
inductive MergeResult
  | countMismatch (n : Nat)
  | concatError
  | merged
deriving DecidableEq, Repr

/-- Method `mergeVideos` (variant 1 lines 566-613, variant 2 lines
1522-1569): select the 5 lexicographically-first product directories, gather
4 processed videos from each, throw when the total differs from 20, concat,
then clean and rename the selected directories.  All throws are caught and
logged; a throw before cleanup leaves the filesystem unchanged. -/
def mergeVideos (oc : MergeOutcome) (fs : MonitorFS) : MonitorFS × MergeResult :=
  let videoFiles := collectFiles fs
  if videoFiles.length ≠ 20 then (fs, .countMismatch videoFiles.length)
  else if oc.concatOk then
    (cleanAndRenameProductDirs oc (selectedDirs fs) fs, .merged)
  else (fs, .concatError)

/-- Method `checkMergeCondition` (variant 1 lines 539-561, variant 2 lines
1495-1517): a no-op while the processing queue is non-empty; otherwise count
product and ready directories and run `mergeVideos` when both counts reach
5.  The Bool records whether `mergeVideos` was invoked. -/
def checkMergeCondition (oc : MergeOutcome) (st : ProcState) (fs : MonitorFS) :
    MonitorFS × Bool :=
  if 0 < st.processingQueue.length then (fs, false)
  else
    let productDirs := getProductDirectories fs
    let readyDirs := productDirs.filter readyDir
    if 5 ≤ productDirs.length ∧ 5 ≤ readyDirs.length then ((mergeVideos oc fs).1, true)
    else (fs, false)

/-! ### Hot-path identity keys and concrete demonstration states -/

/-- Identity key computed by variant 1's `handleFileEvent` (lines 202-234)
for a stable file: `await this.getFileHash(filePath)` — the MD5 of the whole
content. -/
def hotPathKeyV1 (f : FileModel) : String :=
  getFileHash f

/-- Identity key computed by variant 2's `handleFileEvent` (lines 1106-1138)
for a stable file: `this.getFileKey(filePath)`, where `statSync` reads the
size and mtime of `f` when it succeeds. -/
def hotPathKeyV2 (method : FileKeyMethod) (statOk : Bool) (f : FileModel) : String :=
  getFileKeyV2 method (if statOk then some (f.size, f.mtime) else none) f.path

/-- A product directory holding exactly its four normalized outputs. -/
def mergeDemoDir (n : String) : PDir :=
  ⟨s1Tag ++ n, [n ++ "---1.mp4", n ++ "---2.mp4", n ++ "---3.mp4", n ++ "---4.mp4"]⟩

/-- A watched root with five ready product directories (listed out of order),
the temp directory and one already-consumed directory. -/
def mergeDemoFS : MonitorFS :=
  ⟨[mergeDemoDir "e", mergeDemoDir "b", ⟨"temp", []⟩, mergeDemoDir "a",
    mergeDemoDir "c", mergeDemoDir "d", ⟨"S2---old", ["x"]⟩]⟩

/-- Merge outcome where the concat and every cleanup call succeed. -/
def mergeDemoOutcomeAllOk : MergeOutcome :=
  ⟨true, fun _ => .ok⟩

/-- Merge outcome where the concat succeeds but the cleanup loop throws on
directory `S1---c` after unlinking one file. -/
def mergeDemoOutcomeFailC : MergeOutcome :=
  ⟨true, fun n => if n = "S1---c" then .failAfter 1 else .ok⟩

/-- File at path `p` whose content is the single byte `0x30`. -/
def demoFile0 : FileModel := ⟨"p", 1, 7, [48]⟩

/-- File at path `p` with the same size and mtime as `demoFile0` but content
`0x31`. -/
def demoFile1 : FileModel := ⟨"p", 1, 7, [49]⟩

/-! ### Helper lemmas -/

theorem alistHas_alistDelete {α : Type} (k : String) (l : List (String × α)) :
    alistHas k (alistDelete k l) = false := by
  simp only [alistHas, alistDelete, List.any_eq_false, List.mem_filter,
    decide_eq_true_eq, and_imp]
  intro p _ hne
  simpa using hne

theorem setHas_setDelete (k : String) (s : List String) :
    setHas k (setDelete k s) = false := by
  simp only [setHas, setDelete, List.any_eq_false, List.mem_filter,
    decide_eq_true_eq, and_imp]
  intro x _ hne
  simpa using hne

theorem drainLoop_of_empty (now : Nat) (outcome : Bool) (n : Nat) (st : ProcState)
    (h : st.processingQueue = []) : drainLoop now outcome n st = (st, 0) := by
  have htick : queueTick now outcome st = (st, false) := by
    unfold queueTick
    rw [h]
  induction n with
  | zero => rfl
  | succ n ih => simp [drainLoop, htick, ih]

theorem queueTick_retry (now : Nat) (p h e : String) (t rc : Nat) (cp : List String)
    (rp : List (String × Nat)) (hrc : rc + 1 < 3) :
    queueTick now false ⟨[(p, ⟨h, e, t, false, rc⟩)], cp, rp⟩ =
      (⟨[(p, ⟨h, e, t, false, rc + 1⟩)], setDelete h (setAdd h cp), rp⟩, true) := by
  unfold queueTick processQueuedVideo
  simp [alistSet, alistDelete, show ¬ 3 ≤ rc + 1 from by omega]

theorem queueTick_drop (now : Nat) (p h e : String) (t : Nat) (cp : List String)
    (rp : List (String × Nat)) :
    queueTick now false ⟨[(p, ⟨h, e, t, false, 2⟩)], cp, rp⟩ =
      (⟨[], setDelete h (setAdd h cp), rp⟩, true) := by
  unfold queueTick processQueuedVideo
  simp [alistSet, alistDelete]

/-! ### Claim theorems: queue behaviour -/

/-- Claim C4 (code bug): after a queue entry is processed successfully, the
entry is removed from the queue and its key is recorded in
`recentlyProcessed` with the current timestamp — but, contrary to the claim,
the key is NOT removed from the in-flight `currentlyProcessing` set: the
success path of `processQueuedVideo` never deletes it (only the failure path
does).  Consequently, even after the `recentlyProcessed` window expires
(modelled by clearing that map), `isFileBeingProcessed` still reports the key
as busy, so a new filesystem event for the same identity key stays
suppressed.  Evaluated here at a concrete single-entry queue. -/
theorem claim_C4_successLeavesKeyInFlight :
    (processQueuedVideo 100 true ⟨[("p", ⟨"k", "add", 0, false, 0⟩)], [], []⟩ "p"
        ⟨"k", "add", 0, false, 0⟩).processingQueue = [] ∧
    (processQueuedVideo 100 true ⟨[("p", ⟨"k", "add", 0, false, 0⟩)], [], []⟩ "p"
        ⟨"k", "add", 0, false, 0⟩).recentlyProcessed = [("k", 100)] ∧
    (processQueuedVideo 100 true ⟨[("p", ⟨"k", "add", 0, false, 0⟩)], [], []⟩ "p"
        ⟨"k", "add", 0, false, 0⟩).currentlyProcessing = ["k"] ∧
    isFileBeingProcessed
      { processQueuedVideo 100 true ⟨[("p", ⟨"k", "add", 0, false, 0⟩)], [], []⟩ "p"
          ⟨"k", "add", 0, false, 0⟩ with recentlyProcessed := [] } "k" = true := by
  decide

set_option maxRecDepth 10000 in
/-- Claim C5 counterexample: variant 1's `handleFileDelete` does not purge
the `recentlyProcessed` marker.  Concretely: a file at path `p` with content
byte `0x30` was processed under variant 1, so `recentlyProcessed` holds its
md5 identity key; the unlink event for `p` (whose `statSync` now throws)
leaves that marker in place, and the key still counts as being processed —
refuting "no stale marker for a deleted file survives the event". -/
theorem claim_C5_counterexample :
    (handleFileDeleteV1 none "p"
        ⟨[], [], [(getFileHash demoFile0, 100)]⟩).recentlyProcessed
      = [(getFileHash demoFile0, 100)] ∧
    isFileBeingProcessed
      (handleFileDeleteV1 none "p" ⟨[], [], [(getFileHash demoFile0, 100)]⟩)
      (getFileHash demoFile0) = true := by
  constructor
  · rfl
  · decide

/-- Claim C5 as amended: in both variants a deletion event removes the queue
entry keyed by the deleted path and removes the deletion-time file key from
the in-flight set; only the second variant also removes that key from the
`recentlyProcessed` map — the first variant leaves `recentlyProcessed`
untouched. -/
theorem claim_C5_deleteEventPurges (method : FileKeyMethod) (stat? : Option (Nat × Nat))
    (filePath : String) (st : ProcState) :
    alistHas filePath (handleFileDeleteV1 stat? filePath st).processingQueue = false ∧
    setHas (getFileKeyV1 stat? filePath)
      (handleFileDeleteV1 stat? filePath st).currentlyProcessing = false ∧
    (handleFileDeleteV1 stat? filePath st).recentlyProcessed = st.recentlyProcessed ∧
    alistHas filePath (handleFileDeleteV2 method stat? filePath st).processingQueue = false ∧
    setHas (getFileKeyV2 method stat? filePath)
      (handleFileDeleteV2 method stat? filePath st).currentlyProcessing = false ∧
    alistHas (getFileKeyV2 method stat? filePath)
      (handleFileDeleteV2 method stat? filePath st).recentlyProcessed = false := by
  refine ⟨?_, ?_, rfl, ?_, ?_, ?_⟩
  · exact alistHas_alistDelete _ _
  · exact setHas_setDelete _ _
  · exact alistHas_alistDelete _ _
  · exact setHas_setDelete _ _
  · exact alistHas_alistDelete _ _

/-- Claim C6: a queue entry whose processing always fails is attempted
exactly 3 times and then dropped: over any number `n` of drain ticks the
number of processing attempts is `min n 3` (so never a fourth attempt, and
exactly 3 once three ticks have passed), and after 3 or more ticks the queue
is empty — the entry has been dropped for good. -/
theorem claim_C6_exactlyThreeAttempts (now : Nat) (p h e : String) (t : Nat)
    (cp : List String) (rp : List (String × Nat)) :
    (∀ n, (drainLoop now false n ⟨[(p, ⟨h, e, t, false, 0⟩)], cp, rp⟩).2 = min n 3) ∧
    (∀ n, (drainLoop now false (n + 3)
        ⟨[(p, ⟨h, e, t, false, 0⟩)], cp, rp⟩).1.processingQueue = []) := by
  have s1 := queueTick_retry now p h e t 0 cp rp (by omega)
  have s2 := queueTick_retry now p h e t 1 (setDelete h (setAdd h cp)) rp (by omega)
  have s3 := queueTick_drop now p h e t (setDelete h (setAdd h (setDelete h (setAdd h cp)))) rp
  have hempty : ∀ n, drainLoop now false n
      (⟨[], setDelete h (setAdd h (setDelete h (setAdd h (setDelete h (setAdd h cp))))),
        rp⟩ : ProcState) =
      (⟨[], setDelete h (setAdd h (setDelete h (setAdd h (setDelete h (setAdd h cp))))),
        rp⟩, 0) :=
    fun n => drainLoop_of_empty now false n _ rfl
  constructor
  · intro n
    obtain _ | (_ | (_ | m)) := n
    · simp [drainLoop]
    · simp [drainLoop, s1]
    · simp [drainLoop, s1, s2]
    · simp only [drainLoop, s1, s2, s3, hempty, if_true]
      omega
  · intro n
    simp [drainLoop, s1, s2, s3, hempty]

/-- Claim C7: the periodic merge check is a no-op whenever the processing
queue is non-empty — it returns without invoking `mergeVideos`, so the
directory state is returned unchanged (no group is emptied or renamed) and
the invoked flag is false. -/
theorem claim_C7_mergeDeferredWhileQueued (oc : MergeOutcome) (st : ProcState)
    (fs : MonitorFS) (hq : st.processingQueue ≠ []) :
    checkMergeCondition oc st fs = (fs, false) := by
  unfold checkMergeCondition
  rw [if_pos (List.length_pos.mpr hq)]

/-- Witness for C7 at a concrete one-entry queue over the demonstration
directory tree (which otherwise satisfies every merge condition). -/
theorem claim_C7_witness :
    checkMergeCondition mergeDemoOutcomeAllOk
      ⟨[("p", ⟨"k", "add", 0, false, 0⟩)], [], []⟩ mergeDemoFS = (mergeDemoFS, false) :=
  claim_C7_mergeDeferredWhileQueued mergeDemoOutcomeAllOk _ mergeDemoFS (by decide)

/-! ### Claim theorems: identity key derivation -/

set_option maxRecDepth 10000 in
/-- Claim C8 counterexample: on variant 1's hot path the identity key IS a
content hash computed over the whole file.  Two files identical in path,
size and mtime but differing in one content byte receive different keys, so
the key is not derived from the path (or path plus size plus mtime) alone. -/
theorem claim_C8_counterexample :
    demoFile0.path = demoFile1.path ∧ demoFile0.size = demoFile1.size ∧
    demoFile0.mtime = demoFile1.mtime ∧
    hotPathKeyV1 demoFile0 ≠ hotPathKeyV1 demoFile1 := by
  refine ⟨rfl, rfl, rfl, ?_⟩
  decide

/-- Claim C8 as amended: variant 2's hot-path identity key is derived only
from the file's path, or from the path plus size plus mtime — two files
agreeing on those three fields receive the same key in every mode, whatever
their contents; variant 1's hot-path key, by contrast, is the md5 digest of
the whole file content. -/
theorem claim_C8_keyDerivation (method : FileKeyMethod) (statOk : Bool) (f g : FileModel)
    (hp : f.path = g.path) (hs : f.size = g.size) (hm : f.mtime = g.mtime) :
    hotPathKeyV2 method statOk f = hotPathKeyV2 method statOk g ∧
    hotPathKeyV1 f = hexString (md5Bytes f.content) := by
  refine ⟨?_, rfl⟩
  unfold hotPathKeyV2
  rw [hp, hs, hm]

/-- Witness for the amended C8 at the two concrete files of the
counterexample: under variant 2 (composite mode, stat succeeding) they get
the same key despite their different contents. -/
theorem claim_C8_keyDerivation_witness :
    hotPathKeyV2 .pathSizeMtime true demoFile0 = hotPathKeyV2 .pathSizeMtime true demoFile1 :=
  (claim_C8_keyDerivation .pathSizeMtime true demoFile0 demoFile1 rfl rfl rfl).1

/-! ### Claim theorems: transcode pipeline -/

/-- Claim C1: the input file is deleted only after output verification
passes, and any encoding or verification failure leaves the input in place,
deletes the partial output, and rejects the whole operation.  Part one: if
`processVideo` ended with the input gone, then it completed (`done`) and the
output verification succeeded (output present, probeable, within 1s of 20).
Part two: on the encode path (duration not within 0.1 of 20 and at least
16), if the encode failed or verification failed, the call errors out with
the input still present and no output file on disk. -/
theorem claim_C1_deleteOnlyAfterVerify (d : ℚ) (o : EncodeOutcome) :
    ((processVideo (some d) o).fs.inputExists = false →
      (processVideo (some d) o).result = .done ∧ verifyOutputVideo o = true) ∧
    (¬ ratAbs (d - 20) < 1/10 → 16 ≤ d → (o.ok = false ∨ verifyOutputVideo o = false) →
      (processVideo (some d) o).result = .error ∧
      (processVideo (some d) o).fs.inputExists = true ∧
      (processVideo (some d) o).fs.outputExists = false) := by
  constructor
  · intro hinput
    simp only [processVideo] at hinput ⊢
    by_cases hA : ratAbs (d - 20) < 1/10
    · rw [if_pos hA] at hinput
      simp at hinput
    · rw [if_neg hA] at hinput ⊢
      by_cases hB : d < 16
      · rw [if_pos hB] at hinput
        simp at hinput
      · rw [if_neg hB] at hinput ⊢
        by_cases hC : o.ok = false
        · rw [if_pos hC] at hinput
          simp at hinput
        · rw [if_neg hC] at hinput ⊢
          by_cases hD : verifyOutputVideo o = false
          · rw [if_pos hD] at hinput
            simp at hinput
          · rw [if_neg hD] at hinput ⊢
            by_cases hE : o.unlinkInputOk = true
            · rw [if_pos hE]
              refine ⟨rfl, ?_⟩
              simpa using hD
            · rw [if_neg hE] at hinput
              simp at hinput
  · intro habs hge hfail
    simp only [processVideo]
    rw [if_neg habs, if_neg (by linarith)]
    rcases hfail with hok | hver
    · rw [if_pos hok]
      exact ⟨rfl, rfl, rfl⟩
    · by_cases hok : o.ok = false
      · rw [if_pos hok]
        exact ⟨rfl, rfl, rfl⟩
      · rw [if_neg hok, if_pos hver]
        exact ⟨rfl, rfl, rfl⟩

/-- Witness for C1 at duration 30 with a failing encoder: the operation
errors out, the input survives and no output remains. -/
theorem claim_C1_witness :
    (processVideo (some 30) ⟨false, true, none, true⟩).result = .error ∧
    (processVideo (some 30) ⟨false, true, none, true⟩).fs.inputExists = true ∧
    (processVideo (some 30) ⟨false, true, none, true⟩).fs.outputExists = false :=
  (claim_C1_deleteOnlyAfterVerify 30 ⟨false, true, none, true⟩).2
    (by norm_num [ratAbs]) (by norm_num) (Or.inl rfl)

/-- Claim C9: for a measured duration below 16 seconds, `processVideo`
returns without producing an output, without deleting the input, logging a
probe info line and then a warning, and the completion is a success
(`tooShort`, not `error`, so the caller consumes no retry). -/
theorem claim_C9_shortInputIsSuccess (d : ℚ) (o : EncodeOutcome) (h : d < 16) :
    processVideo (some d) o = ⟨⟨true, false⟩, .tooShort, .noAction, [.info, .warning]⟩ ∧
    PvResult.tooShort ≠ PvResult.error := by
  refine ⟨?_, by decide⟩
  have habs : ¬ ratAbs (d - 20) < 1/10 := by
    unfold ratAbs
    rw [if_pos (by linarith)]
    intro hcon
    linarith
  simp only [processVideo]
  rw [if_neg habs, if_pos h]

/-- Witness for C9 at duration 10. -/
theorem claim_C9_witness :
    processVideo (some 10) ⟨true, true, some 20, true⟩ =
      ⟨⟨true, false⟩, .tooShort, .noAction, [.info, .warning]⟩ :=
  (claim_C9_shortInputIsSuccess 10 ⟨true, true, some 20, true⟩ (by norm_num)).1

/-- Claim C10: `adjustSpeed` is invoked only when `16 ≤ d ≤ 24`; there the
speed factor `d / 20` lies in `[0.8, 1.2]`, the `speed > 2` two-stage atempo
branch is unreachable, and the single atempo factor passed to the transcoder
(in either variant) is the speed itself, within the supported `[0.5, 2]`
range. -/
theorem claim_C10_speedFactorInRange (d : ℚ) (o : EncodeOutcome) :
    ((processVideo (some d) o).action = .adjustSpeed → 16 ≤ d ∧ d ≤ 24) ∧
    (16 ≤ d → d ≤ 24 →
      ¬ 2 < d / 20 ∧
      adjustSpeedAtempoV1 d = [d / 20] ∧ adjustSpeedAtempoV2 d = [d / 20] ∧
      4/5 ≤ d / 20 ∧ d / 20 ≤ 6/5 ∧ 1/2 ≤ d / 20 ∧ d / 20 ≤ 2) := by
  constructor
  · intro hact
    simp only [processVideo] at hact
    by_cases hA : ratAbs (d - 20) < 1/10
    · rw [if_pos hA] at hact
      simp at hact
    · rw [if_neg hA] at hact
      by_cases hB : d < 16
      · rw [if_pos hB] at hact
        simp at hact
      · rw [if_neg hB] at hact
        by_cases hF : 16 ≤ d ∧ d ≤ 24
        · exact hF
        · exfalso
          have hchoose : chooseAction d ≠ .adjustSpeed := by
            unfold chooseAction
            rw [if_neg hF]
            split
            · exact fun hcon => by cases hcon
            · exact fun hcon => by cases hcon
          by_cases hC : o.ok = false
          · rw [if_pos hC] at hact
            exact hchoose hact
          · rw [if_neg hC] at hact
            by_cases hD : verifyOutputVideo o = false
            · rw [if_pos hD] at hact
              exact hchoose hact
            · rw [if_neg hD] at hact
              by_cases hE : o.unlinkInputOk = true
              · rw [if_pos hE] at hact
                exact hchoose hact
              · rw [if_neg hE] at hact
                exact hchoose hact
  · intro h16 h24
    have hnot : ¬ 2 < d / 20 := by
      intro hcon
      have hgt : d > 40 := by linarith
      linarith
    refine ⟨hnot, ?_, ?_, by linarith, by linarith, by linarith, by linarith⟩
    · simp [adjustSpeedAtempoV1, hnot]
    · simp [adjustSpeedAtempoV2, hnot]

/-- Witness for C10 at duration 18: the atempo filter list of both variants
is the single factor 18/20 and that factor is within bounds. -/
theorem claim_C10_witness :
    ¬ 2 < (18 : ℚ) / 20 ∧
    adjustSpeedAtempoV1 18 = [(18 : ℚ) / 20] ∧ adjustSpeedAtempoV2 18 = [(18 : ℚ) / 20] ∧
    4/5 ≤ (18 : ℚ) / 20 ∧ (18 : ℚ) / 20 ≤ 6/5 ∧ 1/2 ≤ (18 : ℚ) / 20 ∧ (18 : ℚ) / 20 ≤ 2 :=
  (claim_C10_speedFactorInRange 18 ⟨true, true, some 20, true⟩).2 (by norm_num) (by norm_num)

/-! ### Helper lemmas for the merge claims -/

theorem list_sum_le_four_mul (l : List Nat) (hb : ∀ x ∈ l, x ≤ 4) :
    l.sum ≤ 4 * l.length := by
  induction l with
  | nil => simp
  | cons a t ih =>
    simp only [List.sum_cons, List.length_cons]
    have ha := hb a (List.mem_cons_self a t)
    have ht := ih (fun x hx => hb x (List.mem_cons_of_mem a hx))
    omega

theorem list_all_eq_four (l : List Nat) (hb : ∀ x ∈ l, x ≤ 4)
    (hs : l.sum = 4 * l.length) : ∀ x ∈ l, x = 4 := by
  induction l with
  | nil => simp
  | cons a t ih =>
    have ha := hb a (List.mem_cons_self a t)
    have hbt : ∀ x ∈ t, x ≤ 4 := fun x hx => hb x (List.mem_cons_of_mem a hx)
    have htle := list_sum_le_four_mul t hbt
    simp only [List.sum_cons, List.length_cons] at hs
    have ha4 : a = 4 := by omega
    have hts : t.sum = 4 * t.length := by omega
    intro x hx
    rcases List.mem_cons.mp hx with rfl | hx'
    · exact ha4
    · exact ih hbt hts x hx'

theorem filter_take_eq {α : Type} (p : α → Bool) :
    ∀ (k : Nat) (l : List α), (∀ x ∈ l.take k, p x = true) → (l.take k).length = k →
      (l.filter p).take k = l.take k
  | 0, _, _, _ => by simp
  | k + 1, [], _, hlen => by simp at hlen
  | k + 1, x :: xs, hall, hlen => by
    have hx : p x = true := hall x (by simp)
    have hall' : ∀ y ∈ xs.take k, p y = true := fun y hy =>
      hall y (by rw [List.take_succ_cons]; exact List.mem_cons_of_mem x hy)
    have hlen' : (xs.take k).length = k := by
      rw [List.take_succ_cons, List.length_cons] at hlen
      omega
    calc (List.filter p (x :: xs)).take (k + 1)
        = (x :: List.filter p xs).take (k + 1) := by rw [List.filter_cons_of_pos hx]
      _ = x :: (List.filter p xs).take k := by rw [List.take_succ_cons]
      _ = x :: xs.take k := by rw [filter_take_eq p k xs hall' hlen']
      _ = (x :: xs).take (k + 1) := by rw [List.take_succ_cons]

theorem flatMap_congr {α β : Type} :
    ∀ (l : List α) (f g : α → List β), (∀ x ∈ l, f x = g x) → l.flatMap f = l.flatMap g
  | [], _, _, _ => rfl
  | x :: xs, f, g, h => by
    simp only [List.flatMap_cons]
    rw [h x (List.mem_cons_self x xs), flatMap_congr xs f g (fun y hy => h y (List.mem_cons_of_mem x hy))]

theorem processedTop4_subsetFiles (d : PDir) (f : String) (hf : f ∈ processedTop4 d) :
    f ∈ d.files.filter isProcessedVideoName := by
  have hsub : f ∈ processedSortedNames d := (List.take_sublist 4 _).subset hf
  unfold processedSortedNames at hsub
  simpa using hsub

theorem processedTop4_maximal (d : PDir) (f : String) (hf : f ∈ processedTop4 d) (g : String)
    (hg : g ∈ d.files.filter isProcessedVideoName) :
    g ∈ processedTop4 d ∨ parseOrdinal g ≤ parseOrdinal f := by
  by_cases hmem : g ∈ processedTop4 d
  · exact Or.inl hmem
  · right
    have hgs : g ∈ processedSortedNames d := by
      unfold processedSortedNames
      simpa using hg
    have hsorted : List.Sorted ordinalDesc (processedSortedNames d) :=
      List.sorted_insertionSort ordinalDesc _
    have hsplit : processedTop4 d ++ (processedSortedNames d).drop 4 = processedSortedNames d := by
      unfold processedTop4
      exact List.take_append_drop 4 _
    have hgdrop : g ∈ (processedSortedNames d).drop 4 := by
      rcases List.mem_append.mp (by rw [hsplit]; exact hgs) with h | h
      · exact absurd h hmem
      · exact h
    have hpair : List.Pairwise ordinalDesc
        (processedTop4 d ++ (processedSortedNames d).drop 4) := by
      rw [hsplit]
      exact hsorted
    exact (List.pairwise_append.mp hpair).2.2 f hf g hgdrop

theorem mem_cleanAndRename (oc : MergeOutcome) (sel : List PDir) (fs : MonitorFS) (d : PDir)
    (hd : d ∈ fs.dirs) :
    (if sel.any (fun s => s.name = d.name) then cleanDirApply (oc.cleanResult d.name) d else d)
      ∈ (cleanAndRenameProductDirs oc sel fs).dirs := by
  unfold cleanAndRenameProductDirs
  exact List.mem_map_of_mem _ hd

/-! ### Claim theorems: merge batch -/

/-- Claim C2 counterexample: the merge is not all-or-nothing.  Over the
demonstration tree (five ready groups), with the concat succeeding but the
cleanup loop throwing on group `S1---c` after one unlink, the resulting
directory state differs from the untouched state AND from the fully-reset
state: group `a` was emptied and renamed to `S2---a` while group `S1---c`
keeps its pending tag with one file already deleted. -/
theorem claim_C2_counterexample :
    (mergeVideos mergeDemoOutcomeFailC mergeDemoFS).1 ≠ mergeDemoFS ∧
    (mergeVideos mergeDemoOutcomeFailC mergeDemoFS).1 ≠
      (mergeVideos mergeDemoOutcomeAllOk mergeDemoFS).1 ∧
    (⟨"S2---a", []⟩ : PDir) ∈ (mergeVideos mergeDemoOutcomeFailC mergeDemoFS).1.dirs ∧
    (⟨"S1---c", ["c---2.mp4", "c---3.mp4", "c---4.mp4"]⟩ : PDir) ∈
      (mergeVideos mergeDemoOutcomeFailC mergeDemoFS).1.dirs := by
  decide

/-- Claim C2 as amended: a failure of the count guard or of the concat
leaves every group untouched; after a successful concat the five selected
groups are cleaned and renamed one by one, each failure caught and logged
per group — a group whose cleanup succeeds is emptied and renamed even if
another group's cleanup fails, a group whose cleanup throws keeps its
pending name with only the files unlinked before the throw removed, and
groups outside the selection are never touched. -/
theorem claim_C2_perGroupCleanup (oc : MergeOutcome) (fs : MonitorFS) :
    ((collectFiles fs).length ≠ 20 → (mergeVideos oc fs).1 = fs) ∧
    (oc.concatOk = false → (mergeVideos oc fs).1 = fs) ∧
    ((collectFiles fs).length = 20 → oc.concatOk = true →
      (∀ d ∈ fs.dirs, (selectedDirs fs).any (fun s => s.name = d.name) = false →
        d ∈ (mergeVideos oc fs).1.dirs) ∧
      (∀ d ∈ fs.dirs, (selectedDirs fs).any (fun s => s.name = d.name) = true →
        (oc.cleanResult d.name = .ok →
          (⟨replaceFirst d.name s1Tag s2Tag, []⟩ : PDir) ∈ (mergeVideos oc fs).1.dirs) ∧
        (∀ n, oc.cleanResult d.name = .failAfter n →
          (⟨d.name, d.files.drop n⟩ : PDir) ∈ (mergeVideos oc fs).1.dirs))) := by
  refine ⟨?_, ?_, ?_⟩
  · intro hne
    unfold mergeVideos
    rw [if_pos hne]
  · intro hc
    unfold mergeVideos
    by_cases hl : (collectFiles fs).length ≠ 20
    · rw [if_pos hl]
    · rw [if_neg hl, if_neg (by simp [hc])]
  · intro hl hc
    have hres : (mergeVideos oc fs).1 = cleanAndRenameProductDirs oc (selectedDirs fs) fs := by
      unfold mergeVideos
      rw [if_neg (by simp [hl]), if_pos hc]
    constructor
    · intro d hd hsel
      rw [hres]
      have h := mem_cleanAndRename oc (selectedDirs fs) fs d hd
      rwa [if_neg (by simp [hsel])] at h
    · intro d hd hsel
      constructor
      · intro hok
        rw [hres]
        have h := mem_cleanAndRename oc (selectedDirs fs) fs d hd
        rw [if_pos (by simp [hsel])] at h
        rwa [show cleanDirApply (oc.cleanResult d.name) d =
          (⟨replaceFirst d.name s1Tag s2Tag, []⟩ : PDir) from by rw [hok]; rfl] at h
      · intro n hfail
        rw [hres]
        have h := mem_cleanAndRename oc (selectedDirs fs) fs d hd
        rw [if_pos (by simp [hsel])] at h
        rwa [show cleanDirApply (oc.cleanResult d.name) d =
          (⟨d.name, d.files.drop n⟩ : PDir) from by rw [hfail]; rfl] at h

/-- Witness for the amended C2 over the demonstration tree with the cleanup
of `S1---c` failing: the unselected consumed directory survives untouched,
group `a` is reset, and group `c` keeps its pending name with the remaining
files. -/
theorem claim_C2_perGroupCleanup_witness :
    (⟨"S2---old", ["x"]⟩ : PDir) ∈ (mergeVideos mergeDemoOutcomeFailC mergeDemoFS).1.dirs ∧
    (⟨"S2---a", []⟩ : PDir) ∈ (mergeVideos mergeDemoOutcomeFailC mergeDemoFS).1.dirs ∧
    (⟨"S1---c", ["c---2.mp4", "c---3.mp4", "c---4.mp4"]⟩ : PDir) ∈
      (mergeVideos mergeDemoOutcomeFailC mergeDemoFS).1.dirs := by
  have hmain := (claim_C2_perGroupCleanup mergeDemoOutcomeFailC mergeDemoFS).2.2
    (by decide) rfl
  refine ⟨?_, ?_, ?_⟩
  · exact hmain.1 ⟨"S2---old", ["x"]⟩ (by decide) (by decide)
  · have h := (hmain.2 (mergeDemoDir "a") (by decide) (by decide)).1 (by decide)
    have heq : (⟨replaceFirst (mergeDemoDir "a").name s1Tag s2Tag, []⟩ : PDir) =
        ⟨"S2---a", []⟩ := by decide
    rwa [heq] at h
  · have h := (hmain.2 (mergeDemoDir "c") (by decide) (by decide)).2 1 (by decide)
    have heq : (⟨(mergeDemoDir "c").name, (mergeDemoDir "c").files.drop 1⟩ : PDir) =
        ⟨"S1---c", ["c---2.mp4", "c---3.mp4", "c---4.mp4"]⟩ := by decide
    rwa [heq] at h

/-- Claim C3: when the merge proceeds (the gathered file count is exactly
20), the five selected directories are exactly the lexicographically-first
five product directories, each of them is ready and contributes exactly its
4 processed videos, the selection equals the first five READY directories in
sorted order, the concatenated list is exactly the per-directory
`getProcessedVideos` output in directory order, and each directory's
contribution consists of 4 of its processed files such that every
non-selected processed file has an ordinal no larger than any selected one;
whenever the gathered count differs from 20, the merge throws the count
error and no directory is touched. -/
theorem claim_C3_mergeSelection (oc : MergeOutcome) (fs : MonitorFS) :
    ((collectFiles fs).length ≠ 20 →
      (mergeVideos oc fs).1 = fs ∧
      (mergeVideos oc fs).2 = .countMismatch (collectFiles fs).length) ∧
    ((collectFiles fs).length = 20 →
      (selectedDirs fs).length = 5 ∧
      (∀ d ∈ selectedDirs fs, readyDir d = true ∧ (getProcessedVideos d).length = 4) ∧
      selectedDirs fs = ((sortedProductDirs fs).filter readyDir).take 5 ∧
      collectFiles fs = (selectedDirs fs).flatMap getProcessedVideos ∧
      (∀ d ∈ selectedDirs fs,
        (processedTop4 d).length = 4 ∧
        (∀ f ∈ processedTop4 d, f ∈ d.files.filter isProcessedVideoName) ∧
        (∀ f ∈ processedTop4 d, ∀ g ∈ d.files.filter isProcessedVideoName,
          g ∈ processedTop4 d ∨ parseOrdinal g ≤ parseOrdinal f))) := by
  constructor
  · intro hne
    unfold mergeVideos
    rw [if_pos hne]
    exact ⟨rfl, rfl⟩
  · intro h20
    have hflat : (collectFiles fs).length =
        ((selectedDirs fs).map (fun d => ((getProcessedVideos d).take 4).length)).sum := by
      unfold collectFiles
      rw [List.length_flatMap]
      rfl
    have hLb : ∀ x ∈ (selectedDirs fs).map (fun d => ((getProcessedVideos d).take 4).length),
        x ≤ 4 := by
      intro x hx
      rcases List.mem_map.mp hx with ⟨d, _, rfl⟩
      exact List.length_take_le 4 _
    have hLlen : ((selectedDirs fs).map
        (fun d => ((getProcessedVideos d).take 4).length)).length ≤ 5 := by
      rw [List.length_map]
      unfold selectedDirs
      exact List.length_take_le 5 _
    have hLsum : ((selectedDirs fs).map
        (fun d => ((getProcessedVideos d).take 4).length)).sum = 20 := by
      rw [← hflat]
      exact h20
    have hsum_le := list_sum_le_four_mul _ hLb
    have hLlen5 : ((selectedDirs fs).map
        (fun d => ((getProcessedVideos d).take 4).length)).length = 5 := by omega
    have hall4 := list_all_eq_four _ hLb (by omega)
    have hsellen : (selectedDirs fs).length = 5 := by
      rwa [List.length_map] at hLlen5
    have htake4len : ∀ d ∈ selectedDirs fs, ((getProcessedVideos d).take 4).length = 4 :=
      fun d hd => hall4 _ (List.mem_map_of_mem _ hd)
    have hgpv_le : ∀ d : PDir, (getProcessedVideos d).length ≤ 4 := by
      intro d
      unfold getProcessedVideos processedTop4
      rw [List.length_map]
      exact List.length_take_le _ _
    have hgpvlen : ∀ d ∈ selectedDirs fs, (getProcessedVideos d).length = 4 := by
      intro d hd
      have h1 := htake4len d hd
      rw [List.length_take] at h1
      have h2 := hgpv_le d
      omega
    have hready : ∀ d ∈ selectedDirs fs, readyDir d = true := by
      intro d hd
      unfold readyDir
      simp [hgpvlen d hd]
    refine ⟨hsellen, fun d hd => ⟨hready d hd, hgpvlen d hd⟩, ?_, ?_, ?_⟩
    · unfold selectedDirs
      refine (filter_take_eq readyDir 5 (sortedProductDirs fs) ?_ ?_).symm
      · intro d hd
        exact hready d hd
      · exact hsellen
    · unfold collectFiles
      exact flatMap_congr _ _ _
        (fun d hd => List.take_of_length_le (by rw [hgpvlen d hd]))
    · intro d hd
      refine ⟨?_, fun f hf => processedTop4_subsetFiles d f hf,
        fun f hf g hg => processedTop4_maximal d f hf g hg⟩
      have h1 := hgpvlen d hd
      unfold getProcessedVideos at h1
      rwa [List.length_map] at h1

/-- Witness for C3 over the demonstration tree: the gathered count is
exactly 20, the selection has five directories and equals the five
lexicographically-first ready directories. -/
theorem claim_C3_witness :
    (collectFiles mergeDemoFS).length = 20 ∧
    (selectedDirs mergeDemoFS).length = 5 ∧
    selectedDirs mergeDemoFS = ((sortedProductDirs mergeDemoFS).filter readyDir).take 5 :=
  ⟨by decide,
   ((claim_C3_mergeSelection mergeDemoOutcomeAllOk mergeDemoFS).2 (by decide)).1,
   ((claim_C3_mergeSelection mergeDemoOutcomeAllOk mergeDemoFS).2 (by decide)).2.2.1⟩
